import Mathlib

/-!
# Negotiation protocol of the ADPG frontend: a shallow embedding

This file embeds the buyer–seller price-negotiation logic of the repository
in Lean 4 and proves (or refutes) the specification's claims about it.

The embedded code lives in:
* `src/components/negotiations/NegotiationClientWrapper.tsx` — the turn-based
  proposal/counter state machine (`canAccept`, `handleSubmitProposal`,
  `acceptProposal`, the polling reconciliation effect, the seller
  local-cache derivation effect);
* `src/components/negotiations/NegotiationQuotePanelLocal.tsx` — the bucket
  aggregator `groupBuckets` and the local pricing totals;
* the quote-builder list (`groupBySellerAndBucket`) and
  `NegotiatePriceButton` (`createConversationId`).

JavaScript numbers are modelled as rationals (`ℚ`), strings as Lean
`String`s (and, for the identifier-splitting functions, as `List Char`),
`Record<string, T>` objects as association lists, and fallible async calls
as explicit result values passed into the transition functions.
-/

namespace ADPG

/-- Proposal status tags, from the `ActiveProposal["status"]` union type in
`NegotiationClientWrapper.tsx`. -/
inductive ProposalStatus
  | buyer_proposed
  | seller_countered
  | buyer_countered
  | seller_accepted
deriving DecidableEq, Repr

/-- One entry of `ActiveProposal.bucketSummaries` in
`NegotiationClientWrapper.tsx`. Optional TS fields become `Option`s. -/
structure BucketSummary where
  key : String
  name : String
  total : ℚ
  discountPercent : ℚ
  totalUnits : ℚ
  unitPrice : ℚ
  currency : String
  brand : Option String := none
  model : Option String := none
  variant : Option String := none
  color : Option String := none
  year : Option Int := none
  condition : Option String := none
  bodyType : Option String := none
  mainImageUrl : Option String := none
deriving DecidableEq, Repr

/-- The `ActiveProposal` record of `NegotiationClientWrapper.tsx`. -/
structure ActiveProposal where
  discountPercent : ℚ
  discountAmount : ℚ
  finalPrice : ℚ
  downpaymentPercent : ℚ
  downpaymentAmount : ℚ
  remainingBalance : ℚ
  selectedPort : String
  submittedAt : String
  bucketName : String
  bucketTotal : ℚ
  bucketSummaries : List BucketSummary
  status : ProposalStatus
deriving DecidableEq, Repr

/-- The `uiStatus` React state (`"IDLE" | "BUYER_PROPOSED"`). -/
inductive UiStatus
  | IDLE
  | BUYER_PROPOSED
deriving DecidableEq, Repr

/-- The page-level React state of `NegotiationClientWrapper` that the
negotiation transitions read and write. -/
structure NegotiationState where
  bucketDiscounts : List (String × ℚ)
  downpaymentPercent : ℚ
  selectedPort : String
  isSubmitting : Bool
  submissionError : Option String
  uiStatus : UiStatus
  activeProposal : Option ActiveProposal
  isCountering : Bool
deriving DecidableEq, Repr

/-- `normalizedRole = effectiveRole?.toLowerCase(); isBuyer = normalizedRole === "buyer"`. -/
def isBuyerRole (role : Option String) : Bool :=
  role.map String.toLower == some "buyer"

/-- `isSeller = normalizedRole === "seller" || normalizedRole === "dealer"`. -/
def isSellerRole (role : Option String) : Bool :=
  let n := role.map String.toLower
  n == some "seller" || n == some "dealer"

/-- The `canAccept` memo of `NegotiationClientWrapper.tsx` (lines 390–395):
the Accept button is offered iff this returns `true`. -/
def canAccept (isBuyer isSeller : Bool) (activeProposal : Option ActiveProposal) : Bool :=
  match activeProposal with
  | none => false
  | some ap =>
    if isSeller && (ap.status == .buyer_proposed || ap.status == .buyer_countered) then true
    else if isBuyer && ap.status == .seller_countered then true
    else false

/-- The render condition of the "Counter offer" button (lines 551–564): the
button block requires `activeProposal` non-null, and the Counter button is
shown whenever `activeProposal.status !== "seller_accepted"`. It does not
consult the viewer's role. -/
def counterOfferShown (activeProposal : Option ActiveProposal) : Bool :=
  match activeProposal with
  | none => false
  | some ap => ap.status != .seller_accepted

/-- Clicking "Counter offer" runs `setIsCountering(true)`. -/
def startCounter (st : NegotiationState) : NegotiationState :=
  { st with isCountering := true }

/-- The payload `handleSubmitProposal` receives from the quote panel. -/
structure ProposalData where
  discountPercent : ℚ
  discountAmount : ℚ
  finalPrice : ℚ
  downpaymentPercent : ℚ
  downpaymentAmount : ℚ
  remainingBalance : ℚ
  bucketTotal : ℚ
  bucketName : String
  bucketSummaries : List BucketSummary
deriving DecidableEq, Repr

/-- Return value of `saveProposal`: `{ ok: true }` or `{ ok: false, error }`. -/
structure SaveResult where
  ok : Bool
  error : Option String := none
deriving DecidableEq, Repr

/-- In JavaScript, `acceptProposal` binds `const ok = await saveProposal(next)`
and then tests `if (ok)`: the bound value is the result *object*, which is
always truthy regardless of its `ok` field. -/
def jsTruthyObject (_ : SaveResult) : Bool := true

/-- Status derivation inside `handleSubmitProposal` (lines 173–178):
`isBuyer && activeProposal?.status === "seller_countered" ? "buyer_countered"
: isBuyer ? "buyer_proposed" : "seller_countered"`. -/
def deriveStatus (isBuyer : Bool) (prev : Option ActiveProposal) : ProposalStatus :=
  if isBuyer && (prev.map (·.status) == some .seller_countered) then .buyer_countered
  else if isBuyer then .buyer_proposed
  else .seller_countered

/-- The proposal snapshot `handleSubmitProposal` builds before persisting. -/
def buildProposal (st : NegotiationState) (isBuyer : Bool) (pd : ProposalData)
    (now : String) : ActiveProposal :=
  { discountPercent := pd.discountPercent
    discountAmount := pd.discountAmount
    finalPrice := pd.finalPrice
    downpaymentPercent := pd.downpaymentPercent
    downpaymentAmount := pd.downpaymentAmount
    remainingBalance := pd.remainingBalance
    selectedPort := st.selectedPort
    submittedAt := now
    bucketName := pd.bucketName
    bucketTotal := pd.bucketTotal
    bucketSummaries := pd.bucketSummaries
    status := deriveStatus isBuyer st.activeProposal }

/-- The state updates of `handleSubmitProposal` (lines 142–250). The
fire-and-forget index upsert and the DOM event are side effects outside the
React state and are not part of the state transition; the `catch` branch
performs the same updates as the `!result.ok` branch, so both are modelled
by `save.ok = false`. -/
def handleSubmitProposal (st : NegotiationState) (isBuyer : Bool) (pd : ProposalData)
    (now : String) (save : SaveResult) : NegotiationState :=
  let proposal := buildProposal st isBuyer pd now
  if !save.ok then
    { st with
      submissionError := some "Failed to submit proposal."
      uiStatus := .IDLE
      activeProposal := none
      isSubmitting := false }
  else
    { st with
      uiStatus := .BUYER_PROPOSED
      activeProposal := some proposal
      isCountering := false
      submissionError := none
      isSubmitting := false }

/-- The state updates of `acceptProposal` (lines 397–410). Note the guard
`if (ok)` tests the `SaveResult` object itself (`jsTruthyObject`), not its
`ok` field. -/
def acceptProposal (st : NegotiationState) (now : String) (save : SaveResult) :
    NegotiationState :=
  match st.activeProposal with
  | none => st
  | some ap =>
    let next : ActiveProposal := { ap with status := .seller_accepted, submittedAt := now }
    if jsTruthyObject save then
      { st with activeProposal := some next, uiStatus := .BUYER_PROPOSED, isCountering := false }
    else st

/-- `setStateFromProposal` (lines 111–119): rebuild the discount record from
the bucket summaries, and adopt the proposal's down-payment and port when
they are truthy. -/
def setStateFromProposal (st : NegotiationState) (p : ActiveProposal) : NegotiationState :=
  let nextDiscounts := p.bucketSummaries.map (fun b => (b.key, b.discountPercent))
  let st1 := if nextDiscounts.length > 0 then { st with bucketDiscounts := nextDiscounts } else st
  let st2 :=
    if p.downpaymentPercent != 0 then { st1 with downpaymentPercent := p.downpaymentPercent }
    else st1
  if p.selectedPort != "" then { st2 with selectedPort := p.selectedPort } else st2

/-- The body of the 5-second `loadProposal` poll (lines 252–279) on a
successful fetch: `fetched` is `data?.proposal`. Reconciliation of the local
pricing edits is suppressed while `isCountering` is set. -/
def pollUpdate (st : NegotiationState) (fetched : Option ActiveProposal) : NegotiationState :=
  match fetched with
  | none => st
  | some p =>
    let st' := { st with activeProposal := some p, uiStatus := .BUYER_PROPOSED }
    if !st.isCountering then setStateFromProposal st' p else st'

/-- JavaScript `a || d` on strings: the empty string is falsy. -/
def jsOrString (s : Option String) (d : String) : String :=
  match s with
  | some s => if s == "" then d else s
  | none => d

/-- The shape written to `localStorage` under `negotiationItems_{conversationId}`
by the seller derivation effect (it matches the `QuoteItem` shape). -/
structure DerivedItem where
  id : String
  name : String
  year : Int
  location : String
  quantity : ℚ
  price : ℚ
  currency : String
  mainImageUrl : String
  sellerCompany : String
  sellerId : Option String
  bucketKey : String
  isSelected : Bool
  brand : Option String
  model : Option String
  variant : Option String
  color : Option String
  condition : Option String
  bodyType : Option String
deriving DecidableEq, Repr

/-- The item the seller derivation effect (lines 287–321) builds from one
bucket summary. `Number(x) || 0` on a number is the identity in the
rational model (`NaN` does not arise). -/
def deriveItem (conversationId : String) (sellerName sellerId : Option String)
    (b : BucketSummary) : DerivedItem :=
  let totalUnits : ℚ := b.totalUnits
  let bucketTotal : ℚ := b.total
  let unitPrice : ℚ := if totalUnits > 0 then bucketTotal / totalUnits else b.unitPrice
  { id := conversationId ++ "_" ++ b.key
    name := b.name
    year := b.year.getD 0
    location := ""
    quantity := totalUnits
    price := unitPrice
    currency := b.currency
    mainImageUrl := jsOrString b.mainImageUrl ""
    sellerCompany := jsOrString sellerName "Seller"
    sellerId := sellerId
    bucketKey := b.key
    isSelected := true
    brand := b.brand
    model := b.model
    variant := b.variant
    color := b.color
    condition := b.condition
    bodyType := b.bodyType }

/-- The item list the seller derivation effect computes from the proposal's
bucket summaries. -/
def deriveNegotiationItems (conversationId : String) (sellerName sellerId : Option String)
    (ap : ActiveProposal) : List DerivedItem :=
  ap.bucketSummaries.map (deriveItem conversationId sellerName sellerId)

/-- The write performed by the seller derivation effect: `none` means the
effect returns early and the local cache is left untouched. Guards, in the
source's order: `!isSeller || !activeProposal || !conversationId` and an
empty `bucketSummaries` both bail out. -/
def sellerCacheWrite (isSeller : Bool) (activeProposal : Option ActiveProposal)
    (conversationId : String) (sellerName sellerId : Option String) :
    Option (List DerivedItem) :=
  if !isSeller then none
  else match activeProposal with
    | none => none
    | some ap =>
      if conversationId == "" then none
      else if ap.bucketSummaries.length == 0 then none
      else some (deriveNegotiationItems conversationId sellerName sellerId ap)

end ADPG

namespace ADPG.Aggregator

/-- A line item of the quote builder (`QuoteItem` in the quote-builder list). -/
structure QuoteItem where
  id : String
  name : String
  year : Int
  location : String
  quantity : ℚ
  price : ℚ
  currency : String
  sellerCompany : String
  sellerId : Option String
  bucketKey : String
deriving DecidableEq, Repr

/-- A grouping key. In the source the key is the JavaScript string
`item.bucketKey || [item.name, item.year, item.location, item.price,
item.currency].join("|")`; the derived join is modelled as a structured
value (the join of distinct field tuples yields distinct strings except for
contrived `"|"`-embedding collisions, which are outside the model). -/
inductive BKey
  | explicit : String → BKey
  | derived : String → Int → String → ℚ → String → BKey
deriving DecidableEq, Repr

/-- `item.bucketKey || [...].join("|")`: an empty `bucketKey` is falsy. -/
def buildKey (it : QuoteItem) : BKey :=
  if it.bucketKey ≠ "" then .explicit it.bucketKey
  else .derived it.name it.year it.location it.price it.currency

/-- The `Bucket` record of `NegotiationQuotePanelLocal.tsx`. -/
structure PBucket where
  key : BKey
  name : String
  year : Int
  location : String
  unitPrice : ℚ
  currency : String
  totalUnits : ℚ
deriving DecidableEq, Repr

/-- The bucket created for the first item seen with a key. -/
def mkBucket (it : QuoteItem) : PBucket :=
  { key := buildKey it
    name := it.name
    year := it.year
    location := it.location
    unitPrice := it.price
    currency := it.currency
    totalUnits := it.quantity }

/-- One step of `groupBuckets`: the `Map` keeps insertion order, an existing
bucket only accumulates `totalUnits`, a new key is appended at the end. -/
def insertBucket : List PBucket → QuoteItem → List PBucket
  | [], it => [mkBucket it]
  | b :: bs, it =>
    if b.key = buildKey it then { b with totalUnits := b.totalUnits + it.quantity } :: bs
    else b :: insertBucket bs it

/-- `groupBuckets` of `NegotiationQuotePanelLocal.tsx` (lines 20–40):
`Array.from(map.values())` after inserting every item in order. -/
def groupBuckets (l : List QuoteItem) : List PBucket :=
  l.foldl insertBucket []

/-- Total units recorded for key `k` in a bucket list. -/
def unitsIn (bs : List PBucket) (k : BKey) : ℚ :=
  ((bs.filter (fun b => b.key = k)).map (·.totalUnits)).sum

/-- Whether a bucket with key `k` exists. -/
def hasBucket (bs : List PBucket) (k : BKey) : Bool :=
  bs.any (fun b => decide (b.key = k))

/-- The unit price recorded for key `k`, if any. -/
def priceIn? (bs : List PBucket) (k : BKey) : Option ℚ :=
  (bs.find? (fun b => decide (b.key = k))).map (·.unitPrice)

/-- The static (non-accumulated) fields recorded for key `k`, if any. -/
def staticIn? (bs : List PBucket) (k : BKey) : Option (String × Int × String × ℚ × String) :=
  (bs.find? (fun b => decide (b.key = k))).map
    (fun b => (b.name, b.year, b.location, b.unitPrice, b.currency))

/-- Sum of the items' quantities over those items of `l` grouped under `k`. -/
def itemUnits (l : List QuoteItem) (k : BKey) : ℚ :=
  ((l.filter (fun it => buildKey it = k)).map (·.quantity)).sum

/-- `originalTotal = buckets.reduce((acc, b) => acc + b.totalUnits * b.unitPrice, 0)`
(line 69 of `NegotiationQuotePanelLocal.tsx`): the sum of bucket totals. -/
def totalsSum (bs : List PBucket) : ℚ :=
  (bs.map (fun b => b.totalUnits * b.unitPrice)).sum

/-- The sum of the line items' own totals (`quantity × price`). -/
def itemsTotal (l : List QuoteItem) : ℚ :=
  (l.map (fun it => it.quantity * it.price)).sum

/-- All items that share a grouping key carry the same unit price. -/
def PriceAgree (l : List QuoteItem) : Prop :=
  ∀ it ∈ l, ∀ it' ∈ l, buildKey it = buildKey it' → it.price = it'.price

/-- The static fields of a line item, as copied into a fresh bucket. -/
def staticOf (it : QuoteItem) : String × Int × String × ℚ × String :=
  (it.name, it.year, it.location, it.price, it.currency)

/-- Every item of `l` whose key is already priced in `bs` agrees with the
recorded price. -/
def Compat (bs : List PBucket) (l : List QuoteItem) : Prop :=
  ∀ it ∈ l, ∀ p : ℚ, priceIn? bs (buildKey it) = some p → it.price = p

end ADPG.Aggregator

namespace ADPG.Ident

/-- JavaScript strings are modelled as character lists in this section so
that `split` admits inductive reasoning; `${a}_${b}` is list append with
`'_'` in between. -/
abbrev JStr := List Char

/-- The model of `String.prototype.split("_")`: splits on every underscore,
keeping empty segments, and returns `[""]` on the empty string — exactly the
JavaScript semantics. -/
def splitU (l : JStr) : List JStr :=
  match l with
  | [] => [[]]
  | c :: rest =>
    match splitU rest with
    | [] => [[c]]
    | w :: ws => if c = '_' then [] :: w :: ws else (c :: w) :: ws

/-- `createConversationId` in `NegotiatePriceButton` when `crypto.randomUUID`
is available: `` `${buyerId}_${peerId}_${vehicleId}_${crypto.randomUUID()}` ``. -/
def createConversationIdUUID (buyerId peerId vehicleId uuid : JStr) : JStr :=
  buyerId ++ '_' :: (peerId ++ '_' :: (vehicleId ++ '_' :: uuid))

/-- The fallback branch of `createConversationId`:
`` `${buyerId}_${peerId}_${vehicleId}_${Date.now()}_${Math.random().toString(36).slice(2, 8)}` ``. -/
def createConversationIdFallback (buyerId peerId vehicleId nowMs rand : JStr) : JStr :=
  buyerId ++ '_' :: (peerId ++ '_' :: (vehicleId ++ '_' :: (nowMs ++ '_' :: rand)))

/-- `const sellerId = conversationId.split("_")[1] ?? ""` in the
conversation page (`src/app/my-negotiations/page.tsx`). -/
def sellerIdFromConversationId (conversationId : JStr) : JStr :=
  (splitU conversationId).getD 1 []

end ADPG.Ident

namespace ADPG.Calculator

/-- The calculator rejection, §7 of the spec. -/
inductive CalcError
  | invalidProposalInput
deriving DecidableEq, Repr

/-- The priced proposal the calculator produces. -/
structure CalcProposal where
  discountPercent : ℚ
  downpaymentPercent : ℚ
  finalPrice : ℚ
  downpaymentAmount : ℚ
  remainingBalance : ℚ
deriving DecidableEq, Repr

/-- Modelled from the spec: the full proposal panel that computes the
submitted `finalPrice`/`downpaymentAmount`/`remainingBalance` (the
ProposalCalculator of §4.2) is not among the files under `src/` — only the
wrapper that consumes its output is. Following §4.2 word for word:
validation rejects `discountPercent` outside [0,30], `downpaymentPercent`
outside [10,100] or an empty bucket list with `InvalidProposalInput`;
otherwise the per-bucket discounted total is `bucketTotal × (1 −
discountPercent/100)`, the final price their sum, the down payment `final ×
p/100` floored at 0 and the remainder `final − down` floored at 0.
`buckets` carries the pre-discount bucket totals. -/
def price (buckets : List ℚ) (discountPercent downpaymentPercent : ℚ) :
    Except CalcError CalcProposal :=
  if discountPercent < 0 ∨ 30 < discountPercent ∨ downpaymentPercent < 10 ∨
      100 < downpaymentPercent ∨ buckets.isEmpty then
    .error .invalidProposalInput
  else
    let final := (buckets.map (fun t => t * (1 - discountPercent / 100))).sum
    let down := max (final * (downpaymentPercent / 100)) 0
    let remaining := max (final - down) 0
    .ok { discountPercent := discountPercent
          downpaymentPercent := downpaymentPercent
          finalPrice := final
          downpaymentAmount := down
          remainingBalance := remaining }

/-- Whether a calculator outcome is the `InvalidProposalInput` rejection. -/
def isError : Except CalcError CalcProposal → Bool
  | .error _ => true
  | .ok _ => false

/-- Whether the calculator rejected its input. -/
def rejects (buckets : List ℚ) (d p : ℚ) : Prop :=
  isError (price buckets d p) = true

end ADPG.Calculator



namespace ADPG

/-! Concrete fixtures used by counterexamples and witnesses. -/

/-- A sample bucket summary: 3 units at 10000 with a 10% discount mark
(the worked scenario of the spec, §8). -/
def sampleSummary : BucketSummary :=
  { key := "b1", name := "Toyota Land Cruiser", total := 30000, discountPercent := 10,
    totalUnits := 3, unitPrice := 10000, currency := "USD", year := some 2022,
    mainImageUrl := some "img" }

/-- A pending proposal authored by the seller (status `seller_countered`). -/
def sellerCounterProposal : ActiveProposal :=
  { discountPercent := 10, discountAmount := 3000, finalPrice := 27000,
    downpaymentPercent := 20, downpaymentAmount := 5400, remainingBalance := 21600,
    selectedPort := "Jebel Ali", submittedAt := "t1", bucketName := "Toyota Land Cruiser",
    bucketTotal := 30000, bucketSummaries := [sampleSummary], status := .seller_countered }

/-- The page state while the seller's counter is pending. -/
def sellerCounterState : NegotiationState :=
  { bucketDiscounts := [("b1", 10)], downpaymentPercent := 20, selectedPort := "Jebel Ali",
    isSubmitting := false, submissionError := none, uiStatus := .BUYER_PROPOSED,
    activeProposal := some sellerCounterProposal, isCountering := false }

/-- The page state before any proposal exists. -/
def idleState : NegotiationState :=
  { bucketDiscounts := [], downpaymentPercent := 10, selectedPort := "Jebel Ali",
    isSubmitting := false, submissionError := none, uiStatus := .IDLE,
    activeProposal := none, isCountering := false }

/-- A sample submission payload (15% discount figures). -/
def samplePD : ProposalData :=
  { discountPercent := 15, discountAmount := 4500, finalPrice := 25500,
    downpaymentPercent := 20, downpaymentAmount := 5100, remainingBalance := 20400,
    bucketTotal := 30000, bucketName := "Toyota Land Cruiser",
    bucketSummaries := [{ sampleSummary with discountPercent := 15 }] }

/-- A second submission payload (20% discount figures), used as counter data. -/
def samplePD2 : ProposalData :=
  { discountPercent := 20, discountAmount := 6000, finalPrice := 24000,
    downpaymentPercent := 20, downpaymentAmount := 4800, remainingBalance := 19200,
    bucketTotal := 30000, bucketName := "Toyota Land Cruiser",
    bucketSummaries := [{ sampleSummary with discountPercent := 20 }] }

/-- A successful persistence result. -/
def okSave : SaveResult := { ok := true }

/-- A failed persistence result. -/
def failedSave : SaveResult := { ok := false, error := some "Network error" }

end ADPG

namespace ADPG.Aggregator

/-- A line item with explicit bucket key `"k"`, unit price 100. -/
def itemA : QuoteItem :=
  { id := "v1", name := "Car", year := 2022, location := "Dubai", quantity := 1,
    price := 100, currency := "USD", sellerCompany := "S", sellerId := some "s1",
    bucketKey := "k" }

/-- A second line item sharing key `"k"` but priced 200. -/
def itemB : QuoteItem :=
  { id := "v2", name := "Car", year := 2022, location := "Dubai", quantity := 1,
    price := 200, currency := "AED", sellerCompany := "S", sellerId := some "s1",
    bucketKey := "k" }

/-- A third line item sharing key `"k"` and agreeing with `itemA`'s price. -/
def itemC : QuoteItem :=
  { id := "v3", name := "Car", year := 2022, location := "Dubai", quantity := 2,
    price := 100, currency := "USD", sellerCompany := "S", sellerId := some "s1",
    bucketKey := "k" }

end ADPG.Aggregator

/-! ## Aggregator lemmas -/

namespace ADPG.Aggregator

theorem unitsIn_nil (k : BKey) : unitsIn [] k = 0 := rfl

theorem unitsIn_cons (b : PBucket) (bs : List PBucket) (k : BKey) :
    unitsIn (b :: bs) k = (if b.key = k then b.totalUnits else 0) + unitsIn bs k := by
  by_cases h : b.key = k <;>
    simp [unitsIn, List.filter_cons, h]

theorem unitsIn_insertBucket (bs : List PBucket) (it : QuoteItem) (k : BKey) :
    unitsIn (insertBucket bs it) k
      = unitsIn bs k + (if buildKey it = k then it.quantity else 0) := by
  induction bs with
  | nil =>
    by_cases h : buildKey it = k <;>
      simp [insertBucket, mkBucket, unitsIn, List.filter_cons, h]
  | cons b rest ih =>
    by_cases hb : b.key = buildKey it
    · have hbk : (buildKey it = k) ↔ (b.key = k) := by rw [hb]
      simp only [insertBucket, if_pos hb, unitsIn_cons]
      by_cases hk : b.key = k
      · simp only [if_pos hk, if_pos (hbk.mpr hk)]; ring
      · simp only [if_neg hk, if_neg (fun h => hk (hbk.mp h))]; ring
    · simp only [insertBucket, if_neg hb, unitsIn_cons, ih]
      ring

theorem itemUnits_nil (k : BKey) : itemUnits [] k = 0 := rfl

theorem itemUnits_cons (it : QuoteItem) (l : List QuoteItem) (k : BKey) :
    itemUnits (it :: l) k
      = (if buildKey it = k then it.quantity else 0) + itemUnits l k := by
  by_cases h : buildKey it = k <;>
    simp [itemUnits, List.filter_cons, h]

theorem unitsIn_foldl (l : List QuoteItem) :
    ∀ acc : List PBucket, ∀ k : BKey,
      unitsIn (l.foldl insertBucket acc) k = unitsIn acc k + itemUnits l k := by
  induction l with
  | nil => intro acc k; simp [itemUnits_nil]
  | cons it rest ih =>
    intro acc k
    rw [List.foldl_cons, ih, unitsIn_insertBucket, itemUnits_cons]
    ring

theorem unitsIn_groupBuckets (l : List QuoteItem) (k : BKey) :
    unitsIn (groupBuckets l) k = itemUnits l k := by
  rw [groupBuckets, unitsIn_foldl, unitsIn_nil, zero_add]

theorem itemUnits_perm {l l' : List QuoteItem} (h : l.Perm l') (k : BKey) :
    itemUnits l k = itemUnits l' k :=
  ((h.filter _).map _).sum_eq

end ADPG.Aggregator

namespace ADPG.Aggregator

theorem hasBucket_cons (b : PBucket) (bs : List PBucket) (k : BKey) :
    hasBucket (b :: bs) k = (decide (b.key = k) || hasBucket bs k) := by
  simp [hasBucket]

theorem hasBucket_insertBucket (bs : List PBucket) (it : QuoteItem) (k : BKey) :
    hasBucket (insertBucket bs it) k = (hasBucket bs k || decide (buildKey it = k)) := by
  induction bs with
  | nil => simp [insertBucket, mkBucket, hasBucket]
  | cons b rest ih =>
    by_cases hb : b.key = buildKey it
    · have hbk : (buildKey it = k) ↔ (b.key = k) := by rw [hb]
      simp only [insertBucket, if_pos hb, hasBucket_cons]
      by_cases hk : b.key = k
      · simp [hk, hbk.mpr hk]
      · have hnk : ¬ buildKey it = k := fun h => hk (hbk.mp h)
        simp [hk, hnk]
    · simp only [insertBucket, if_neg hb, hasBucket_cons, ih]
      rw [Bool.or_assoc]

theorem hasBucket_foldl (l : List QuoteItem) :
    ∀ acc : List PBucket, ∀ k : BKey,
      hasBucket (l.foldl insertBucket acc) k
        = (hasBucket acc k || l.any (fun it => decide (buildKey it = k))) := by
  induction l with
  | nil => intro acc k; simp
  | cons it rest ih =>
    intro acc k
    rw [List.foldl_cons, ih, hasBucket_insertBucket, List.any_cons]
    rw [Bool.or_assoc, Bool.or_comm (decide (buildKey it = k))]

theorem hasBucket_groupBuckets (l : List QuoteItem) (k : BKey) :
    hasBucket (groupBuckets l) k = l.any (fun it => decide (buildKey it = k)) := by
  rw [groupBuckets, hasBucket_foldl]
  simp [hasBucket]

theorem any_of_perm {α : Type} {l l' : List α} (h : l.Perm l') (f : α → Bool) :
    l.any f = l'.any f := by
  rw [Bool.eq_iff_iff, List.any_eq_true, List.any_eq_true]
  constructor
  · rintro ⟨x, hx, hfx⟩; exact ⟨x, h.mem_iff.mp hx, hfx⟩
  · rintro ⟨x, hx, hfx⟩; exact ⟨x, h.mem_iff.mpr hx, hfx⟩

theorem priceIn?_cons (b : PBucket) (bs : List PBucket) (k : BKey) :
    priceIn? (b :: bs) k
      = if b.key = k then some b.unitPrice else priceIn? bs k := by
  by_cases h : b.key = k <;> simp [priceIn?, List.find?_cons, h]

theorem priceIn?_eq_none_iff (bs : List PBucket) (k : BKey) :
    priceIn? bs k = none ↔ hasBucket bs k = false := by
  induction bs with
  | nil => simp [priceIn?, hasBucket]
  | cons b rest ih =>
    rw [priceIn?_cons, hasBucket_cons]
    by_cases h : b.key = k <;> simp [h, ih]

theorem priceIn?_insertBucket_ne (bs : List PBucket) (it : QuoteItem) (k : BKey)
    (hne : buildKey it ≠ k) :
    priceIn? (insertBucket bs it) k = priceIn? bs k := by
  induction bs with
  | nil => simp [insertBucket, mkBucket, priceIn?, List.find?_cons, hne]
  | cons b rest ih =>
    by_cases hb : b.key = buildKey it
    · have hk : ¬ b.key = k := fun h => hne (hb ▸ h)
      simp only [insertBucket, if_pos hb, priceIn?_cons, if_neg hk]
    · simp only [insertBucket, if_neg hb, priceIn?_cons, ih]

theorem priceIn?_insertBucket_eq (bs : List PBucket) (it : QuoteItem) :
    priceIn? (insertBucket bs it) (buildKey it)
      = some ((priceIn? bs (buildKey it)).getD it.price) := by
  induction bs with
  | nil => simp [insertBucket, mkBucket, priceIn?, List.find?_cons]
  | cons b rest ih =>
    by_cases hb : b.key = buildKey it
    · simp only [insertBucket, if_pos hb, priceIn?_cons, if_pos hb, Option.getD_some]
    · simp only [insertBucket, if_neg hb, priceIn?_cons, if_neg hb, ih]

end ADPG.Aggregator

namespace ADPG.Aggregator

theorem staticIn?_cons (b : PBucket) (bs : List PBucket) (k : BKey) :
    staticIn? (b :: bs) k
      = if b.key = k then some (b.name, b.year, b.location, b.unitPrice, b.currency)
        else staticIn? bs k := by
  by_cases h : b.key = k <;> simp [staticIn?, List.find?_cons, h]

theorem staticIn?_insertBucket_ne (bs : List PBucket) (it : QuoteItem) (k : BKey)
    (hne : buildKey it ≠ k) :
    staticIn? (insertBucket bs it) k = staticIn? bs k := by
  induction bs with
  | nil => simp [insertBucket, mkBucket, staticIn?, List.find?_cons, hne]
  | cons b rest ih =>
    by_cases hb : b.key = buildKey it
    · have hk : ¬ b.key = k := fun h => hne (hb ▸ h)
      simp only [insertBucket, if_pos hb, staticIn?_cons, if_neg hk]
    · simp only [insertBucket, if_neg hb, staticIn?_cons, ih]

theorem staticIn?_insertBucket_eq (bs : List PBucket) (it : QuoteItem) :
    staticIn? (insertBucket bs it) (buildKey it)
      = some ((staticIn? bs (buildKey it)).getD (staticOf it)) := by
  induction bs with
  | nil => simp [insertBucket, mkBucket, staticIn?, List.find?_cons, staticOf]
  | cons b rest ih =>
    by_cases hb : b.key = buildKey it
    · simp only [insertBucket, if_pos hb, staticIn?_cons, if_pos hb, Option.getD_some]
    · simp only [insertBucket, if_neg hb, staticIn?_cons, if_neg hb, ih]

theorem staticIn?_foldl (l : List QuoteItem) :
    ∀ acc : List PBucket, ∀ k : BKey,
      staticIn? (l.foldl insertBucket acc) k
        = ((staticIn? acc k).or
            ((l.find? (fun it => decide (buildKey it = k))).map staticOf)) := by
  induction l with
  | nil => intro acc k; simp
  | cons it rest ih =>
    intro acc k
    rw [List.foldl_cons, ih]
    by_cases h : buildKey it = k
    · subst h
      have hfind : (it :: rest).find? (fun x => decide (buildKey x = buildKey it)) = some it :=
        List.find?_cons_of_pos _ (by simp)
      rw [staticIn?_insertBucket_eq, hfind]
      cases hacc : staticIn? acc (buildKey it) with
      | none => rfl
      | some v => rfl
    · have hfind : (it :: rest).find? (fun x => decide (buildKey x = k))
          = rest.find? (fun x => decide (buildKey x = k)) :=
        List.find?_cons_of_neg _ (by simp [h])
      rw [staticIn?_insertBucket_ne _ _ _ h, hfind]

theorem staticIn?_groupBuckets (l : List QuoteItem) (k : BKey) :
    staticIn? (groupBuckets l) k
      = (l.find? (fun it => decide (buildKey it = k))).map staticOf := by
  rw [groupBuckets, staticIn?_foldl]
  simp [staticIn?]

theorem totalsSum_nil : totalsSum [] = 0 := rfl

theorem totalsSum_cons (b : PBucket) (bs : List PBucket) :
    totalsSum (b :: bs) = b.totalUnits * b.unitPrice + totalsSum bs := by
  simp [totalsSum]

theorem totalsSum_insertBucket (bs : List PBucket) (it : QuoteItem) :
    totalsSum (insertBucket bs it)
      = totalsSum bs + it.quantity * ((priceIn? bs (buildKey it)).getD it.price) := by
  induction bs with
  | nil => simp [insertBucket, mkBucket, totalsSum, priceIn?]
  | cons b rest ih =>
    by_cases hb : b.key = buildKey it
    · simp only [insertBucket, if_pos hb, totalsSum_cons, priceIn?_cons, if_pos hb,
        Option.getD_some]
      ring
    · simp only [insertBucket, if_neg hb, totalsSum_cons, priceIn?_cons, if_neg hb, ih]
      ring

theorem totalsSum_foldl (l : List QuoteItem) :
    ∀ acc : List PBucket, PriceAgree l → Compat acc l →
      totalsSum (l.foldl insertBucket acc) = totalsSum acc + itemsTotal l := by
  induction l with
  | nil => intro acc _ _; simp [itemsTotal]
  | cons it rest ih =>
    intro acc hagree hcompat
    have hagree' : PriceAgree rest := fun a ha b hb hk =>
      hagree a (List.mem_cons_of_mem _ ha) b (List.mem_cons_of_mem _ hb) hk
    have hcompat' : Compat (insertBucket acc it) rest := by
      intro it' hmem p hp
      by_cases hk : buildKey it' = buildKey it
      · rw [hk, priceIn?_insertBucket_eq] at hp
        cases hacc : priceIn? acc (buildKey it) with
        | some p0 =>
          rw [hacc] at hp
          simp only [Option.getD_some, Option.some.injEq] at hp
          have hacc' : priceIn? acc (buildKey it') = some p0 := by rw [hk]; exact hacc
          exact hp ▸ hcompat it' (List.mem_cons_of_mem _ hmem) p0 hacc'
        | none =>
          rw [hacc] at hp
          simp only [Option.getD_none, Option.some.injEq] at hp
          exact hp ▸ hagree it' (List.mem_cons_of_mem _ hmem) it (List.mem_cons_self _ _) hk
      · rw [priceIn?_insertBucket_ne _ _ _ (fun h => hk h.symm)] at hp
        exact hcompat it' (List.mem_cons_of_mem _ hmem) p hp
    rw [List.foldl_cons, ih _ hagree' hcompat', totalsSum_insertBucket]
    have hgetD : (priceIn? acc (buildKey it)).getD it.price = it.price := by
      cases hacc : priceIn? acc (buildKey it) with
      | some p0 => simpa using (hcompat it (List.mem_cons_self _ _) p0 hacc).symm
      | none => rfl
    rw [hgetD]
    simp only [itemsTotal, List.map_cons, List.sum_cons]
    ring

theorem totalsSum_groupBuckets (l : List QuoteItem) (h : PriceAgree l) :
    totalsSum (groupBuckets l) = itemsTotal l := by
  have : Compat [] l := by intro it _ p hp; simp [priceIn?] at hp
  rw [groupBuckets, totalsSum_foldl l [] h this, totalsSum_nil, zero_add]

theorem itemsTotal_perm {l l' : List QuoteItem} (h : l.Perm l') :
    itemsTotal l = itemsTotal l' :=
  (h.map _).sum_eq

theorem priceAgree_perm {l l' : List QuoteItem} (h : l.Perm l') (ha : PriceAgree l) :
    PriceAgree l' := fun a haa b hbb hk =>
  ha a (h.mem_iff.mpr haa) b (h.mem_iff.mpr hbb) hk

end ADPG.Aggregator

namespace ADPG.Ident

theorem splitU_ne_nil (l : JStr) : splitU l ≠ [] := by
  cases l with
  | nil => simp [splitU]
  | cons c rest =>
    simp only [splitU]
    cases splitU rest with
    | nil => simp
    | cons w ws => by_cases h : c = '_' <;> simp [h]

theorem splitU_append_underscore (a rest : JStr) (ha : '_' ∉ a) :
    splitU (a ++ '_' :: rest) = a :: splitU rest := by
  induction a with
  | nil =>
    simp only [List.nil_append, splitU]
    cases hr : splitU rest with
    | nil => exact absurd hr (splitU_ne_nil rest)
    | cons w ws => simp
  | cons c a' ih =>
    have hc : c ≠ '_' := fun h => ha (h ▸ List.mem_cons_self _ _)
    have ha' : '_' ∉ a' := fun h => ha (List.mem_cons_of_mem _ h)
    have step : splitU (c :: (a' ++ '_' :: rest))
        = match splitU (a' ++ '_' :: rest) with
          | [] => [[c]]
          | w :: ws => if c = '_' then [] :: w :: ws else (c :: w) :: ws := rfl
    rw [List.cons_append, step, ih ha']
    simp [hc]

theorem splitU_no_underscore (a : JStr) (ha : '_' ∉ a) : splitU a = [a] := by
  induction a with
  | nil => rfl
  | cons c a' ih =>
    have hc : c ≠ '_' := fun h => ha (h ▸ List.mem_cons_self _ _)
    have ha' : '_' ∉ a' := fun h => ha (List.mem_cons_of_mem _ h)
    simp only [splitU, ih ha']
    simp [hc]

theorem splitU_createConversationIdUUID (b s i u : JStr)
    (hb : '_' ∉ b) (hs : '_' ∉ s) (hi : '_' ∉ i) (hu : '_' ∉ u) :
    splitU (createConversationIdUUID b s i u) = [b, s, i, u] := by
  rw [createConversationIdUUID, splitU_append_underscore _ _ hb,
    splitU_append_underscore _ _ hs, splitU_append_underscore _ _ hi,
    splitU_no_underscore _ hu]

theorem splitU_createConversationIdFallback (b s i n r : JStr)
    (hb : '_' ∉ b) (hs : '_' ∉ s) (hi : '_' ∉ i) (hn : '_' ∉ n) (hr : '_' ∉ r) :
    splitU (createConversationIdFallback b s i n r) = [b, s, i, n, r] := by
  rw [createConversationIdFallback, splitU_append_underscore _ _ hb,
    splitU_append_underscore _ _ hs, splitU_append_underscore _ _ hi,
    splitU_append_underscore _ _ hn, splitU_no_underscore _ hr]

end ADPG.Ident

/-! ## Claims -/

namespace ADPG

/-- C1 (counterexample): with the pending proposal authored by the seller
(status `seller_countered`), the claim says the author's counter attempt is
rejected with no state change; in the code the Counter control is offered
to the seller as well, and the seller's re-submission goes through and
replaces the pending proposal. -/
theorem claim_C1_counterexample :
    counterOfferShown (some sellerCounterProposal) = true ∧
    (handleSubmitProposal sellerCounterState false samplePD "t2" okSave).activeProposal
      ≠ sellerCounterState.activeProposal := by
  constructor
  · rfl
  · decide

/-- C1 (amended): on a pending (non-terminal) proposal the author cannot
accept — `canAccept` is false for the author's role and true for the
non-author's — but the Counter action is offered to both parties: its
render condition does not consult the viewer's role, so the author of the
pending offer is not rejected when countering. -/
theorem claim_C1_amended (ap : ActiveProposal) (hp : ap.status ≠ .seller_accepted) :
    (ap.status = .buyer_proposed ∨ ap.status = .buyer_countered →
      canAccept true false (some ap) = false ∧ canAccept false true (some ap) = true) ∧
    (ap.status = .seller_countered →
      canAccept false true (some ap) = false ∧ canAccept true false (some ap) = true) ∧
    counterOfferShown (some ap) = true := by
  refine ⟨?_, ?_, ?_⟩
  · rintro (h | h) <;> simp [canAccept, h]
  · intro h; simp [canAccept, h]
  · simp only [counterOfferShown, bne_iff_ne, ne_eq]
    exact hp

/-- C1 (witness): the amended theorem applied to the concrete pending
seller counter. -/
theorem claim_C1_witness :
    canAccept false true (some sellerCounterProposal) = false ∧
    canAccept true false (some sellerCounterProposal) = true ∧
    counterOfferShown (some sellerCounterProposal) = true := by
  obtain ⟨-, h2, h3⟩ := claim_C1_amended sellerCounterProposal (by decide)
  obtain ⟨ha, hb⟩ := h2 rfl
  exact ⟨ha, hb, h3⟩

/-- C2 (code_bug evaluation): at the failing input — a pending proposal and
a `put` that fails — the code still transitions: `acceptProposal` tests the
truthiness of the result object instead of its `ok` field, so the local
state becomes `seller_accepted` even though persistence failed; and a
failed submit/counter clears the previous proposal (`setActiveProposal(null)`)
instead of keeping it intact. -/
theorem claim_C2_code_bug :
    failedSave.ok = false ∧
    (acceptProposal sellerCounterState "t2" failedSave).activeProposal.map (·.status)
      = some .seller_accepted ∧
    (handleSubmitProposal sellerCounterState true samplePD "t2" failedSave).activeProposal
      = none ∧
    sellerCounterState.activeProposal ≠ none := by
  refine ⟨rfl, rfl, rfl, ?_⟩
  decide

/-- C3 (counterexample): at IDLE (no proposal) a seller submission is not
rejected with `IllegalTransition`: `handleSubmitProposal` derives status
`seller_countered` and installs a proposal. -/
theorem claim_C3_counterexample :
    idleState.activeProposal = none ∧
    (handleSubmitProposal idleState false samplePD "t1" okSave).activeProposal.map (·.status)
      = some .seller_countered := by
  exact ⟨rfl, rfl⟩

/-- C3 (amended): from IDLE, a buyer submit yields a `buyer_proposed`
proposal and UI status `BUYER_PROPOSED`; accept and counter are unavailable
to every role (`canAccept` is false and the Counter control is not rendered
without a proposal); but a seller submit is not rejected — it installs a
proposal with status `seller_countered`. -/
theorem claim_C3_amended (st : NegotiationState) (h : st.activeProposal = none)
    (pd : ProposalData) (now : String) (save : SaveResult) (hsave : save.ok = true)
    (b s : Bool) :
    (handleSubmitProposal st true pd now save).activeProposal.map (·.status)
      = some .buyer_proposed ∧
    (handleSubmitProposal st true pd now save).uiStatus = .BUYER_PROPOSED ∧
    canAccept b s st.activeProposal = false ∧
    counterOfferShown st.activeProposal = false ∧
    (handleSubmitProposal st false pd now save).activeProposal.map (·.status)
      = some .seller_countered := by
  refine ⟨?_, ?_, ?_, ?_, ?_⟩ <;>
    simp [handleSubmitProposal, buildProposal, deriveStatus, h, hsave,
      canAccept, counterOfferShown]

/-- C3 (witness): the amended theorem applied at the concrete IDLE state. -/
theorem claim_C3_witness :
    idleState.activeProposal = none ∧ okSave.ok = true ∧
    ((handleSubmitProposal idleState true samplePD "t1" okSave).activeProposal.map (·.status)
        = some .buyer_proposed ∧
      (handleSubmitProposal idleState true samplePD "t1" okSave).uiStatus = .BUYER_PROPOSED ∧
      canAccept false true idleState.activeProposal = false ∧
      counterOfferShown idleState.activeProposal = false ∧
      (handleSubmitProposal idleState false samplePD "t1" okSave).activeProposal.map (·.status)
        = some .seller_countered) :=
  ⟨rfl, rfl, claim_C3_amended idleState rfl samplePD "t1" okSave rfl false true⟩

end ADPG

namespace ADPG

/-- C4: accept produces a fresh snapshot with status `seller_accepted`, a
fresh timestamp, and every pricing field copied from the pending proposal
being accepted; once accepted, neither accept nor counter is offered to any
role. In the buyer-submits / seller-counters / buyer-accepts scenario the
final state carries the seller's counter figures. -/
theorem claim_C4_theorem :
    (∀ (st : NegotiationState) (ap : ActiveProposal) (now : String) (save : SaveResult),
      st.activeProposal = some ap →
      ∃ next : ActiveProposal,
        (acceptProposal st now save).activeProposal = some next ∧
        next.status = .seller_accepted ∧
        next.submittedAt = now ∧
        next.discountPercent = ap.discountPercent ∧
        next.discountAmount = ap.discountAmount ∧
        next.finalPrice = ap.finalPrice ∧
        next.downpaymentPercent = ap.downpaymentPercent ∧
        next.downpaymentAmount = ap.downpaymentAmount ∧
        next.remainingBalance = ap.remainingBalance ∧
        next.bucketTotal = ap.bucketTotal ∧
        next.bucketSummaries = ap.bucketSummaries ∧
        (∀ b s : Bool, canAccept b s (some next) = false) ∧
        counterOfferShown (some next) = false) ∧
    (∀ (st0 : NegotiationState) (pd1 pd2 : ProposalData) (t1 t2 t3 : String),
      st0.activeProposal = none →
      ((acceptProposal (handleSubmitProposal (handleSubmitProposal st0 true pd1 t1 okSave)
          false pd2 t2 okSave) t3 okSave).activeProposal.map
            (fun p => (p.status, p.discountPercent, p.finalPrice, p.downpaymentAmount,
              p.remainingBalance, p.bucketSummaries)))
        = some (.seller_accepted, pd2.discountPercent, pd2.finalPrice,
            pd2.downpaymentAmount, pd2.remainingBalance, pd2.bucketSummaries)) := by
  constructor
  · intro st ap now save h
    refine ⟨{ ap with status := .seller_accepted, submittedAt := now }, ?_,
      rfl, rfl, rfl, rfl, rfl, rfl, rfl, rfl, rfl, rfl, ?_, rfl⟩
    · simp [acceptProposal, h, jsTruthyObject]
    · intro b s
      cases b <;> cases s <;> simp [canAccept]
  · intro st0 pd1 pd2 t1 t2 t3 h0
    simp [handleSubmitProposal, buildProposal, deriveStatus, acceptProposal,
      jsTruthyObject, okSave, h0]

/-- C4 (witness): the theorem applied at the concrete pending seller counter
and at the concrete IDLE state with the two sample payloads. -/
theorem claim_C4_witness :
    (∃ next : ActiveProposal,
      (acceptProposal sellerCounterState "t2" okSave).activeProposal = some next ∧
      next.status = .seller_accepted ∧
      next.submittedAt = "t2" ∧
      next.discountPercent = sellerCounterProposal.discountPercent ∧
      next.discountAmount = sellerCounterProposal.discountAmount ∧
      next.finalPrice = sellerCounterProposal.finalPrice ∧
      next.downpaymentPercent = sellerCounterProposal.downpaymentPercent ∧
      next.downpaymentAmount = sellerCounterProposal.downpaymentAmount ∧
      next.remainingBalance = sellerCounterProposal.remainingBalance ∧
      next.bucketTotal = sellerCounterProposal.bucketTotal ∧
      next.bucketSummaries = sellerCounterProposal.bucketSummaries ∧
      (∀ b s : Bool, canAccept b s (some next) = false) ∧
      counterOfferShown (some next) = false) ∧
    ((acceptProposal (handleSubmitProposal (handleSubmitProposal idleState true samplePD "t1" okSave)
        false samplePD2 "t2" okSave) "t3" okSave).activeProposal.map
          (fun p => (p.status, p.discountPercent, p.finalPrice, p.downpaymentAmount,
            p.remainingBalance, p.bucketSummaries)))
      = some (.seller_accepted, samplePD2.discountPercent, samplePD2.finalPrice,
          samplePD2.downpaymentAmount, samplePD2.remainingBalance, samplePD2.bucketSummaries) :=
  ⟨claim_C4_theorem.1 sellerCounterState sellerCounterProposal "t2" okSave rfl,
    claim_C4_theorem.2 idleState samplePD samplePD2 "t1" "t2" "t3" rfl⟩

end ADPG

namespace ADPG.Calculator

/-- C5: for every proposal the calculator accepts with discount in [0,30]
and down-payment in [10,100] over nonnegative bucket totals: the final
price is the sum of the discounted bucket totals, the down payment is
`finalPrice × p/100`, the remaining balance is their difference (so the two
sum back to the final price), and all three monetary values are
nonnegative. -/
theorem claim_C5_theorem (buckets : List ℚ) (d p : ℚ) (pr : CalcProposal)
    (hd0 : 0 ≤ d) (hd : d ≤ 30) (hp0 : 10 ≤ p) (hp : p ≤ 100)
    (hb : ∀ t ∈ buckets, 0 ≤ t)
    (hok : price buckets d p = .ok pr) :
    pr.finalPrice = (buckets.map (fun t => t * (1 - d / 100))).sum ∧
    pr.downpaymentAmount = pr.finalPrice * (p / 100) ∧
    pr.remainingBalance = pr.finalPrice - pr.downpaymentAmount ∧
    pr.downpaymentAmount + pr.remainingBalance = pr.finalPrice ∧
    0 ≤ pr.finalPrice ∧ 0 ≤ pr.downpaymentAmount ∧ 0 ≤ pr.remainingBalance := by
  have hfin : 0 ≤ (buckets.map (fun t => t * (1 - d / 100))).sum := by
    apply List.sum_nonneg
    intro x hx
    obtain ⟨t, ht, rfl⟩ := List.mem_map.mp hx
    have h1 : (0 : ℚ) ≤ 1 - d / 100 := by linarith
    exact mul_nonneg (hb t ht) h1
  have hdown : 0 ≤ (buckets.map (fun t => t * (1 - d / 100))).sum * (p / 100) :=
    mul_nonneg hfin (by linarith)
  have hrem : 0 ≤ (buckets.map (fun t => t * (1 - d / 100))).sum
      - (buckets.map (fun t => t * (1 - d / 100))).sum * (p / 100) := by
    have : (buckets.map (fun t => t * (1 - d / 100))).sum * (p / 100)
        ≤ (buckets.map (fun t => t * (1 - d / 100))).sum * 1 := by
      apply mul_le_mul_of_nonneg_left _ hfin
      linarith
    linarith
  unfold price at hok
  split at hok
  · exact absurd hok (by simp)
  · simp only [Except.ok.injEq] at hok
    subst hok
    dsimp only
    rw [max_eq_left hdown, max_eq_left hrem]
    exact ⟨rfl, rfl, rfl, by ring, hfin, hdown, hrem⟩

/-- C5 (witness): the spec's worked scenario — one bucket of 3 × 10000,
discount 10%, down-payment 20% — gives 27000 / 5400 / 21600. -/
theorem claim_C5_witness :
    price [30000] 10 20
      = .ok { discountPercent := 10, downpaymentPercent := 20, finalPrice := 27000,
              downpaymentAmount := 5400, remainingBalance := 21600 } ∧
    ({ discountPercent := 10, downpaymentPercent := 20, finalPrice := 27000,
       downpaymentAmount := 5400, remainingBalance := 21600 : CalcProposal }.finalPrice
        = ([30000].map (fun t => t * (1 - (10 : ℚ) / 100))).sum ∧
      ({ discountPercent := 10, downpaymentPercent := 20, finalPrice := 27000,
         downpaymentAmount := 5400, remainingBalance := 21600 : CalcProposal }.downpaymentAmount
        = (27000 : ℚ) * (20 / 100)) ∧
      (5400 : ℚ) + 21600 = 27000) := by
  have hok : price [30000] 10 20
      = .ok { discountPercent := 10, downpaymentPercent := 20, finalPrice := 27000,
              downpaymentAmount := 5400, remainingBalance := 21600 } := by
    unfold price
    norm_num
  have h := claim_C5_theorem [30000] 10 20
    { discountPercent := 10, downpaymentPercent := 20, finalPrice := 27000,
      downpaymentAmount := 5400, remainingBalance := 21600 }
    (by norm_num) (by norm_num) (by norm_num) (by norm_num)
    (by intro t ht; simp at ht; simp [ht]) hok
  exact ⟨hok, h.1, h.2.1, by norm_num⟩

/-- C6: the calculator signals `InvalidProposalInput` exactly when the
discount is outside [0,30], the down-payment outside [10,100], or the
bucket set is empty; all in-range inputs over a nonempty bucket set are
accepted. -/
theorem claim_C6_theorem (buckets : List ℚ) (d p : ℚ) :
    rejects buckets d p ↔
      (d < 0 ∨ 30 < d ∨ p < 10 ∨ 100 < p ∨ buckets = []) := by
  unfold rejects price
  split
  · rename_i h
    simp only [isError, true_iff]
    rcases h with h | h | h | h | h
    · exact Or.inl h
    · exact Or.inr (Or.inl h)
    · exact Or.inr (Or.inr (Or.inl h))
    · exact Or.inr (Or.inr (Or.inr (Or.inl h)))
    · exact Or.inr (Or.inr (Or.inr (Or.inr (List.isEmpty_iff.mp h))))
  · rename_i h
    constructor
    · intro hc
      exact absurd hc (by simp [isError])
    · intro hc
      exfalso
      apply h
      rcases hc with hc | hc | hc | hc | hc
      · exact Or.inl hc
      · exact Or.inr (Or.inl hc)
      · exact Or.inr (Or.inr (Or.inl hc))
      · exact Or.inr (Or.inr (Or.inr (Or.inl hc)))
      · exact Or.inr (Or.inr (Or.inr (Or.inr (List.isEmpty_iff.mpr hc))))

end ADPG.Calculator

namespace ADPG.Aggregator

/-- C7 (counterexample): `[itemA, itemB]` and `[itemB, itemA]` are
permutations of one another — both carry two units under key `"k"` — yet
the sums of the bucket totals (`totalUnits × unitPrice`) differ, because
the bucket's unit price is whichever item came first. -/
theorem claim_C7_counterexample :
    [itemA, itemB].Perm [itemB, itemA] ∧
    totalsSum (groupBuckets [itemA, itemB]) ≠ totalsSum (groupBuckets [itemB, itemA]) := by
  constructor
  · exact List.Perm.swap _ _ _
  · simp [totalsSum, groupBuckets, insertBucket, mkBucket, buildKey, itemA, itemB]

/-- C7 (amended): the aggregator is a pure function of its input and, under
every permutation of the line items, produces the same set of bucket keys
with the same per-bucket unit counts; the per-bucket totals and their sum
are also permutation-invariant whenever all items sharing a key carry the
same unit price (in particular for keys derived from the
name/year/location/price/currency tuple), but not in general. -/
theorem claim_C7_amended {l l' : List QuoteItem} (h : l.Perm l') :
    (∀ k, hasBucket (groupBuckets l) k = hasBucket (groupBuckets l') k) ∧
    (∀ k, unitsIn (groupBuckets l) k = unitsIn (groupBuckets l') k) ∧
    (PriceAgree l → totalsSum (groupBuckets l) = totalsSum (groupBuckets l')) := by
  refine ⟨?_, ?_, ?_⟩
  · intro k
    rw [hasBucket_groupBuckets, hasBucket_groupBuckets]
    exact any_of_perm h _
  · intro k
    rw [unitsIn_groupBuckets, unitsIn_groupBuckets]
    exact itemUnits_perm h k
  · intro ha
    rw [totalsSum_groupBuckets l ha, totalsSum_groupBuckets l' (priceAgree_perm h ha)]
    exact itemsTotal_perm h

/-- C7 (witness): the amended theorem applied to the concrete swap of two
price-agreeing items. -/
theorem claim_C7_witness :
    unitsIn (groupBuckets [itemA, itemC]) (buildKey itemA)
      = unitsIn (groupBuckets [itemC, itemA]) (buildKey itemA) ∧
    totalsSum (groupBuckets [itemA, itemC]) = totalsSum (groupBuckets [itemC, itemA]) := by
  have hpa : PriceAgree [itemA, itemC] := by
    intro x hx y hy _
    simp only [List.mem_cons, List.not_mem_nil, or_false] at hx hy
    rcases hx with rfl | rfl <;> rcases hy with rfl | rfl <;> rfl
  obtain ⟨-, hu, ht⟩ := claim_C7_amended (List.Perm.swap itemC itemA [])
  exact ⟨hu _, ht hpa⟩

/-- C10: the bucket for key `k` carries the name, year, location, unit
price and currency of the *first* item of the input with that key, while
its unit count is the sum over all items with that key; concretely, the
bucket over `[itemA, itemB]` is priced at `itemA`'s 100 while over
`[itemB, itemA]` it is priced at `itemB`'s 200, and its
`totalUnits × unitPrice` total (200) differs from the sum of the items' own
totals (300). -/
theorem claim_C10_theorem :
    (∀ (l : List QuoteItem) (k : BKey),
      staticIn? (groupBuckets l) k
        = (l.find? (fun it => decide (buildKey it = k))).map staticOf ∧
      unitsIn (groupBuckets l) k = itemUnits l k) ∧
    priceIn? (groupBuckets [itemA, itemB]) (buildKey itemA) = some itemA.price ∧
    priceIn? (groupBuckets [itemB, itemA]) (buildKey itemA) = some itemB.price ∧
    itemA.price ≠ itemB.price ∧ itemA.currency ≠ itemB.currency ∧
    totalsSum (groupBuckets [itemA, itemB]) ≠ itemsTotal [itemA, itemB] := by
  refine ⟨fun l k => ⟨staticIn?_groupBuckets l k, unitsIn_groupBuckets l k⟩,
    ?_, ?_, by norm_num [itemA, itemB], by decide, ?_⟩
  · simp [priceIn?, groupBuckets, insertBucket, mkBucket, buildKey, itemA, itemB]
  · simp [priceIn?, groupBuckets, insertBucket, mkBucket, buildKey, itemA, itemB]
  · simp [totalsSum, itemsTotal, groupBuckets, insertBucket, mkBucket, buildKey,
      itemA, itemB]
    norm_num

end ADPG.Aggregator

namespace ADPG

/-- C8: a poll that returns a proposal while `isCountering` is set leaves
the local discount / down-payment / port edits untouched (it still adopts
the fetched proposal snapshot); when the viewer is the seller the local
negotiation-items cache is rewritten as a pure function of the proposal's
bucket summaries — one item per summary, quantity `totalUnits`, unit price
recomputed as `total / totalUnits` (recovering the summary's unit price
whenever `total = totalUnits × unitPrice`) — and no write happens for a
non-seller viewer. -/
theorem claim_C8_theorem :
    (∀ (st : NegotiationState) (p : ActiveProposal), st.isCountering = true →
      (pollUpdate st (some p)).bucketDiscounts = st.bucketDiscounts ∧
      (pollUpdate st (some p)).downpaymentPercent = st.downpaymentPercent ∧
      (pollUpdate st (some p)).selectedPort = st.selectedPort ∧
      (pollUpdate st (some p)).activeProposal = some p) ∧
    (∀ (ap : ActiveProposal) (cid : String) (sn sid : Option String),
      cid ≠ "" → ap.bucketSummaries ≠ [] →
      sellerCacheWrite true (some ap) cid sn sid
        = some (deriveNegotiationItems cid sn sid ap) ∧
      (∀ (i : ℕ) (b : BucketSummary), ap.bucketSummaries.get? i = some b →
        ∃ di : DerivedItem,
          (deriveNegotiationItems cid sn sid ap).get? i = some di ∧
          di.bucketKey = b.key ∧
          di.id = cid ++ "_" ++ b.key ∧
          di.quantity = b.totalUnits ∧
          (0 < b.totalUnits → b.total = b.totalUnits * b.unitPrice →
            di.price = b.unitPrice)) ∧
      sellerCacheWrite false (some ap) cid sn sid = none) := by
  constructor
  · intro st p h
    simp [pollUpdate, h]
  · intro ap cid sn sid hcid hbs
    refine ⟨?_, ?_, ?_⟩
    · have h1 : (cid == "") = false := by
        simp only [beq_eq_false_iff_ne, ne_eq]; exact hcid
      have h2 : (ap.bucketSummaries.length == 0) = false := by
        simp only [beq_eq_false_iff_ne, ne_eq, List.length_eq_zero]; exact hbs
      simp [sellerCacheWrite, h1, h2]
    · intro i b hib
      have hdi : (deriveNegotiationItems cid sn sid ap).get? i
          = some (deriveItem cid sn sid b) := by
        rw [deriveNegotiationItems, List.get?_map, hib]
        rfl
      refine ⟨deriveItem cid sn sid b, hdi, rfl, rfl, rfl, ?_⟩
      intro hpos htot
      show (if 0 < b.totalUnits then b.total / b.totalUnits else b.unitPrice) = b.unitPrice
      rw [if_pos hpos, htot, mul_div_cancel_left₀ _ (ne_of_gt hpos)]
    · rfl

/-- C8 (witness): the theorem applied at a countering state and at the
concrete pending proposal. -/
theorem claim_C8_witness :
    ((pollUpdate (startCounter sellerCounterState) (some sellerCounterProposal)).bucketDiscounts
        = (startCounter sellerCounterState).bucketDiscounts ∧
      (pollUpdate (startCounter sellerCounterState) (some sellerCounterProposal)).downpaymentPercent
        = (startCounter sellerCounterState).downpaymentPercent ∧
      (pollUpdate (startCounter sellerCounterState) (some sellerCounterProposal)).selectedPort
        = (startCounter sellerCounterState).selectedPort ∧
      (pollUpdate (startCounter sellerCounterState) (some sellerCounterProposal)).activeProposal
        = some sellerCounterProposal) ∧
    sellerCacheWrite true (some sellerCounterProposal) "c1" (some "Desert Motors") (some "s1")
      = some (deriveNegotiationItems "c1" (some "Desert Motors") (some "s1")
          sellerCounterProposal) :=
  ⟨(claim_C8_theorem.1 (startCounter sellerCounterState) sellerCounterProposal rfl),
    (claim_C8_theorem.2 sellerCounterProposal "c1" (some "Desert Motors") (some "s1")
      (by decide) (by decide)).1⟩

end ADPG

namespace ADPG.Ident

/-- C9 (counterexample): the fallback branch of `createConversationId`
(taken when `crypto.randomUUID` is unavailable) produces *five*
underscore-joined components, not four; and the conversation page parses
the identifier — `conversationId.split("_")[1]` — to recover a seller id
used in the negotiation UI, so callers do not treat it as opaque. -/
theorem claim_C9_counterexample :
    (splitU (createConversationIdFallback
        "buyer1".data "seller9".data "veh42".data "1700000000000".data "a1b2c3".data)).length
      = 5 ∧
    sellerIdFromConversationId (createConversationIdUUID
        "buyer1".data "seller9".data "veh42".data "3f2c-uuid".data)
      = "seller9".data := by
  constructor
  · decide
  · decide

/-- C9 (amended): when the component ids are underscore-free,
`createConversationId` yields `{buyerId}_{sellerId}_{itemId}_{uuid}` — four
underscore-joined components — in the `crypto.randomUUID` branch and
`{buyerId}_{sellerId}_{itemId}_{timestamp}_{random}` — five — in the
fallback branch; and in both cases the conversation page's
`split("_")[1]` parse recovers the seller id, so the identifier is parsed
for the negotiation UI rather than treated as fully opaque. -/
theorem claim_C9_amended (b s i u n r : JStr)
    (hb : '_' ∉ b) (hs : '_' ∉ s) (hi : '_' ∉ i) (hu : '_' ∉ u)
    (hn : '_' ∉ n) (hr : '_' ∉ r) :
    splitU (createConversationIdUUID b s i u) = [b, s, i, u] ∧
    splitU (createConversationIdFallback b s i n r) = [b, s, i, n, r] ∧
    sellerIdFromConversationId (createConversationIdUUID b s i u) = s ∧
    sellerIdFromConversationId (createConversationIdFallback b s i n r) = s := by
  have h1 := splitU_createConversationIdUUID b s i u hb hs hi hu
  have h2 := splitU_createConversationIdFallback b s i n r hb hs hi hn hr
  refine ⟨h1, h2, ?_, ?_⟩
  · unfold sellerIdFromConversationId
    rw [h1]
    rfl
  · unfold sellerIdFromConversationId
    rw [h2]
    rfl

/-- C9 (witness): the amended theorem applied to concrete underscore-free
identifiers. -/
theorem claim_C9_witness :
    ('_' ∉ "buyer1".data ∧ '_' ∉ "seller9".data ∧ '_' ∉ "veh42".data) ∧
    splitU (createConversationIdUUID "buyer1".data "seller9".data "veh42".data "u0".data)
      = ["buyer1".data, "seller9".data, "veh42".data, "u0".data] ∧
    sellerIdFromConversationId (createConversationIdFallback
        "buyer1".data "seller9".data "veh42".data "123".data "ab".data)
      = "seller9".data := by
  have h := claim_C9_amended "buyer1".data "seller9".data "veh42".data "u0".data
    "123".data "ab".data (by decide) (by decide) (by decide) (by decide) (by decide)
    (by decide)
  exact ⟨⟨by decide, by decide, by decide⟩, h.1, h.2.2.2⟩

end ADPG.Ident
